import Mathlib

/-!
Driving demo: the simulation core of `js/main.js`.

A shallow embedding of the update loop of `js/main.js` (car control, road
clamp, pedestrian spawning, collision scoring, camera follow) and the
properties proved about it.

Numbers are elements of an arbitrary linearly ordered field `α`, so every
definition is computable (it runs on `ℚ`) and every theorem also holds over
`ℝ`. The three transcendental primitives that the code takes from the host
(`Math.sqrt`, and the sine and cosine behind `Object3D.quaternion`) are the
fields of `Host`. Theorems that need more of the sine and cosine than their
values at `0` are stated over `ℝ`, for a host whose `sin` and `cos` are the
real ones.
-/

namespace Games

/-! ## Vectors (the part of `THREE.Vector3` that `main.js` uses) -/

/-- A `THREE.Vector3`. -/
structure Vector3 (α : Type) where
  x : α
  y : α
  z : α
deriving DecidableEq, Repr

/-- The numeric primitives of the host: `sqrt` is `Math.sqrt`; `sin` and `cos`
are the functions through which the rendering library turns the Euler angle
`rotation.y` of an object into its `quaternion`. -/
structure Host (α : Type) where
  sin : α → α
  cos : α → α
  sqrt : α → α

section Model

variable {α : Type} [LinearOrderedField α]

namespace Vector3

/-- Models `a.add(b)`. -/
def add (a b : Vector3 α) : Vector3 α := ⟨a.x + b.x, a.y + b.y, a.z + b.z⟩

/-- Models `v.multiplyScalar(s)`. -/
def multiplyScalar (v : Vector3 α) (s : α) : Vector3 α := ⟨v.x * s, v.y * s, v.z * s⟩

/-- Models `p.addScaledVector(v, s)`. -/
def addScaledVector (p v : Vector3 α) (s : α) : Vector3 α :=
  ⟨p.x + v.x * s, p.y + v.y * s, p.z + v.z * s⟩

/-- Models `a.distanceToSquared(b)`. -/
def distanceToSquared (a b : Vector3 α) : α :=
  (a.x - b.x) * (a.x - b.x) + (a.y - b.y) * (a.y - b.y) + (a.z - b.z) * (a.z - b.z)

/-- The test `a.distanceTo(b) < t` for a positive threshold `t`. The library
computes `distanceTo` as `Math.sqrt(distanceToSquared)`; for `t > 0` the
comparison `sqrt d < t` is the comparison `d < t * t`, which is how it is
evaluated here (see `sqrt_distance_lt_iff` for the real square root). -/
def distanceLt (a b : Vector3 α) (t : α) : Bool := decide (distanceToSquared a b < t * t)

/-- Models `v.lerp(t, alpha)`: each component moves by `alpha` times its offset to `t`. -/
def lerp (v t : Vector3 α) (alpha : α) : Vector3 α :=
  ⟨v.x + (t.x - v.x) * alpha, v.y + (t.y - v.y) * alpha, v.z + (t.z - v.z) * alpha⟩

/-- Models `v.normalize()`: division by `v.length() || 1`. -/
def normalize (H : Host α) (v : Vector3 α) : Vector3 α :=
  let len := H.sqrt (v.x * v.x + v.y * v.y + v.z * v.z)
  let d := if len = 0 then 1 else len
  ⟨v.x / d, v.y / d, v.z / d⟩

/-- Models `v.applyQuaternion(obj.quaternion)` for an object whose only non-zero Euler
angle is `rotation.y = h` (the car: `main.js` never touches `car.rotation.x`
or `.z`): the rotation of `v` about the vertical axis by `h`. -/
def applyYaw (H : Host α) (h : α) (v : Vector3 α) : Vector3 α :=
  ⟨v.x * H.cos h + v.z * H.sin h, v.y, v.z * H.cos h - v.x * H.sin h⟩

end Vector3

/-- Models `THREE.MathUtils.clamp(value, min, max)`, i.e.
`Math.max(min, Math.min(max, value))`. -/
def clamp (value lo hi : α) : α := max lo (min hi value)

/-! ## Constants and state of `main.js` -/

/-- Source: `const acceleration = 0.015`. -/
def acceleration : α := 0.015
/-- Source: `const maxSpeed = 0.4`. -/
def maxSpeed : α := 0.4
/-- Source: `const rotationSpeed = 0.025`. -/
def rotationSpeed : α := 0.025
/-- Source: `const roadBoundaryX = 8`. -/
def roadBoundaryX : α := 8
/-- Source: `const roadBoundaryZ = 190`. -/
def roadBoundaryZ : α := 190
/-- Source: `const maxPedestrians = 8`. -/
def maxPedestrians : Nat := 8
/-- Source: `const pedestrianRespawnDelay = 1500` (milliseconds). -/
def pedestrianRespawnDelay : Nat := 1500
/-- Source: `const collisionThreshold = 1.8` in `checkCollision`. -/
def collisionThreshold : α := 1.8

/-- The car mesh: its position and its yaw `car.rotation.y`. -/
structure Car (α : Type) where
  position : Vector3 α
  rotationY : α
deriving DecidableEq, Repr

/-- The four key flags `moveForward`, `moveBackward`, `turnLeft`, `turnRight`. -/
structure Input where
  moveForward : Bool
  moveBackward : Bool
  turnLeft : Bool
  turnRight : Bool
deriving DecidableEq, Repr

/-- The mutable globals of `main.js` after `init()` has created the scene, the
car and the camera (none of them is ever unset afterwards, so the guards
`!scene`, `!car`, `!camera` are false). `pedestrians` holds the position of each
pedestrian mesh in array order; `pendingRespawns` counts the
`setTimeout(spawnPedestrian, pedestrianRespawnDelay)` timers scheduled so far. -/
structure Game (α : Type) where
  car : Car α
  carSpeed : α
  hitCount : Nat
  pedestrians : List (Vector3 α)
  pendingRespawns : Nat
  camera : Vector3 α
deriving DecidableEq, Repr

/-! ## `updateCarMovement` -/

/-- The value of `effectiveRotationSpeed` (first statement of
`updateCarMovement`), computed from the speed the tick starts with. -/
def effectiveRotationSpeed (carSpeed : α) : α :=
  rotationSpeed * (|carSpeed| / maxSpeed + 0.3)

/-- The block "Acceleration/Deceleration" of `updateCarMovement`: the new value
of `carSpeed`. -/
def nextSpeed (inp : Input) (carSpeed : α) : α :=
  if inp.moveForward then min (carSpeed + acceleration) maxSpeed
  else if inp.moveBackward then max (carSpeed - acceleration * 1.5) (-maxSpeed / 2)
  else if |carSpeed| > 0.01 then carSpeed * 0.97
  else 0

/-- The block "Turning (only when moving)" of `updateCarMovement`: the new value
of `car.rotation.y`, given the rate `eff` and the already updated `carSpeed`. -/
def nextRotation (inp : Input) (eff carSpeed rotationY : α) : α :=
  if |carSpeed| > 0.01 then
    let r := if inp.turnLeft then rotationY + eff else rotationY
    if inp.turnRight then r - eff else r
  else rotationY

/-- The blocks "Apply Movement" and "Clamp Car Position to Road Boundary" of
`updateCarMovement`: the new `car.position`. -/
def nextPosition (H : Host α) (carSpeed rotationY : α) (position : Vector3 α) : Vector3 α :=
  let moveDirection := Vector3.applyYaw H rotationY ⟨0, 0, -1⟩
  let p := position.addScaledVector moveDirection carSpeed
  let p := { p with x := clamp p.x (-roadBoundaryX) roadBoundaryX }
  { p with z := clamp p.z (-roadBoundaryZ) roadBoundaryZ }

/-- Models `updateCarMovement(deltaTime)`; `deltaTime` is not read by the function. -/
def updateCarMovement (H : Host α) (inp : Input) (g : Game α) : Game α :=
  let eff := effectiveRotationSpeed g.carSpeed
  let carSpeed := nextSpeed inp g.carSpeed
  let rotationY := nextRotation inp eff carSpeed g.car.rotationY
  let position := nextPosition H carSpeed rotationY g.car.position
  { g with carSpeed := carSpeed, car := ⟨position, rotationY⟩ }

/-! ## `checkCollision` -/

/-- The `for (let i = pedestrians.length - 1; i >= 0; i--)` loop of
`checkCollision`, entered with `i + 1 = n`: the index at which the loop reaches
its `break`, or `none` when it runs down to `i < 0`. An absent element is the
`if (!currentPed) continue` case. -/
def collisionScan (carPosition : Vector3 α) (pedestrians : List (Vector3 α)) :
    Nat → Option Nat
  | 0 => none
  | i + 1 =>
    match pedestrians[i]? with
    | none => collisionScan carPosition pedestrians i
    | some currentPed =>
      if carPosition.distanceLt currentPed collisionThreshold then some i
      else collisionScan carPosition pedestrians i

/-- Models `checkCollision()`: on the first pedestrian (from the end of the array)
closer than `collisionThreshold`, `hitCount++`, `pedestrians.splice(i, 1)` and
one `setTimeout(spawnPedestrian, pedestrianRespawnDelay)`. -/
def checkCollision (g : Game α) : Game α :=
  if g.pedestrians.length = 0 then g
  else
    match collisionScan g.car.position g.pedestrians g.pedestrians.length with
    | none => g
    | some i =>
      { g with hitCount := g.hitCount + 1,
               pedestrians := g.pedestrians.eraseIdx i,
               pendingRespawns := g.pendingRespawns + 1 }

/-! ## `spawnPedestrian` -/

/-- The values returned by the calls of `Math.random()` that one run of
`spawnPedestrian` can make, each in `[0, 1)`, named after what the code uses
them for. A call that is not reached leaves its field unread. -/
structure Draws (α : Type) where
  colour : α
  distance : α
  initialDistance : α
  side : α
  coin : α
  dirX : α
  dirZ : α
deriving DecidableEq, Repr

/-- Every draw is a value of `Math.random()`, i.e. in `[0, 1)`. -/
def Draws.Valid (r : Draws α) : Prop :=
  (0 ≤ r.colour ∧ r.colour < 1) ∧ (0 ≤ r.distance ∧ r.distance < 1) ∧
  (0 ≤ r.initialDistance ∧ r.initialDistance < 1) ∧ (0 ≤ r.side ∧ r.side < 1) ∧
  (0 ≤ r.coin ∧ r.coin < 1) ∧ (0 ≤ r.dirX ∧ r.dirX < 1) ∧ (0 ≤ r.dirZ ∧ r.dirZ < 1)

/-- The value of `spawnPos` in `spawnPedestrian` when the loop "Prevent
spawning too close" is reached. -/
def spawnPos (H : Host α) (initialSpawn : Bool) (r : Draws α) (car : Car α) : Vector3 α :=
  let spawnDistance := if initialSpawn then 10 + r.initialDistance * 100 else 20 + r.distance * 30
  let sideOffset := (r.side - 0.5) * (roadBoundaryX * 2 * 0.9)
  let anchor : Vector3 α × Vector3 α :=
    if initialSpawn && decide (r.coin < 0.5) then
      (⟨0, 0, 0⟩, Vector3.normalize H ⟨r.dirX - 0.5, 0, r.dirZ - 0.5⟩)
    else
      (car.position, Vector3.applyYaw H car.rotationY ⟨0, 0, -1⟩)
  let p := anchor.1.add (anchor.2.multiplyScalar spawnDistance)
  let p := { p with x := sideOffset }
  { p with y := 0.85 }

/-- The flag `tooClose` of `spawnPedestrian`: some pedestrian `p` of the pool
has `p.position.distanceTo(spawnPos) < 3.0`. -/
def tooClose (pedestrians : List (Vector3 α)) (pos : Vector3 α) : Bool :=
  pedestrians.any fun p => p.distanceLt pos 3.0

/-- Models `spawnPedestrian(initialSpawn)`. -/
def spawnPedestrian (H : Host α) (initialSpawn : Bool) (r : Draws α) (g : Game α) : Game α :=
  if g.pedestrians.length ≥ maxPedestrians then g
  else
    let pos := spawnPos H initialSpawn r g.car
    if tooClose g.pedestrians pos then g
    else { g with pedestrians := g.pedestrians ++ [pos] }

/-- Models `spawnInitialPedestrians()`: `maxPedestrians` calls of
`spawnPedestrian(true)`; call `i` uses the draws `rs i`. -/
def spawnInitialPedestrians (H : Host α) (rs : Nat → Draws α) (g : Game α) : Game α :=
  (List.range maxPedestrians).foldl (fun g i => spawnPedestrian H true (rs i) g) g

/-- The callback of `setTimeout(spawnPedestrian, pedestrianRespawnDelay)` firing:
a call `spawnPedestrian()` with `initialSpawn` at its default `false`. Without
a scheduled timer nothing happens. -/
def respawnTimer (H : Host α) (r : Draws α) (g : Game α) : Game α :=
  if g.pendingRespawns = 0 then g
  else
    let g1 := spawnPedestrian H false r g
    { g1 with pendingRespawns := g.pendingRespawns - 1 }

/-! ## `updateCamera` and `animate` -/

/-- Models `updateCamera()`: the camera position (its orientation, set by `lookAt`, is
not part of the state). -/
def updateCamera (H : Host α) (g : Game α) : Game α :=
  let offset := Vector3.applyYaw H g.car.rotationY ⟨0, 4, 8⟩
  let targetPosition := g.car.position.add offset
  { g with camera := g.camera.lerp targetPosition 0.05 }

/-- One call of `animate()` as far as car, pool, score and camera go (the
airplane touches none of them): `roll` is the `Math.random()` of the "Respawn
Pedestrians" test and `r` the draws of the spawn it may start. -/
def animate (H : Host α) (inp : Input) (roll : α) (r : Draws α) (g : Game α) : Game α :=
  let g := updateCarMovement H inp g
  let g := checkCollision g
  let g := updateCamera H g
  if g.pedestrians.length < maxPedestrians ∧ roll < 0.1 then spawnPedestrian H false r g
  else g

/-- The state after `n` calls of `animate()` from `g`, call `k` reading the
flags `inp k`, the roll `rolls k` and the draws `rs k`. -/
def animateN (H : Host α) (inp : Nat → Input) (rolls : Nat → α) (rs : Nat → Draws α)
    (g : Game α) : Nat → Game α
  | 0 => g
  | n + 1 => animate H (inp n) (rolls n) (rs n) (animateN H inp rolls rs g n)

/-- The state `init()` leaves before its first spawn: car at `(0, 0.3, 0)` with
yaw `0`, speed `0`, no hit, empty pool, camera at `(0, 4, 8)`. -/
def initial : Game α :=
  { car := ⟨⟨0, 0.3, 0⟩, 0⟩, carSpeed := 0, hitCount := 0, pedestrians := [],
    pendingRespawns := 0, camera := ⟨0, 4, 8⟩ }

/-- The state after the calls `updateCarMovement` of a sequence of ticks, tick
by tick with the flags of `inps`. -/
def updateCarMovementN (H : Host α) (inps : List Input) (g : Game α) : Game α :=
  inps.foldl (fun g inp => updateCarMovement H inp g) g

/-- A rational stand-in for the host primitives, for evaluating the model on
concrete inputs: truncated series for sine and cosine (exact at `0`) and one
Newton step for the square root. -/
def ratHost : Host ℚ :=
  { sin := fun h => h - h * h * h / 6
    cos := fun h => 1 - h * h / 2
    sqrt := fun a => if a = 0 then 0 else (1 + a) / 2 }

/-! ## Sessions -/

/-- One thing that can happen to the state after `init()` has created the car:
a call of one of the functions of `main.js`, with the values its `Math.random()`
calls return. -/
inductive Event (α : Type) where
  /-- Models `spawnInitialPedestrians()` -/
  | spawnInitial (rs : Nat → Draws α)
  /-- Models `spawnPedestrian(initialSpawn)` -/
  | spawn (initialSpawn : Bool) (r : Draws α)
  /-- a respawn timer set by `checkCollision` fires -/
  | timer (r : Draws α)
  /-- Models `checkCollision()` -/
  | collision
  /-- Models `updateCarMovement(deltaTime)` -/
  | move (inp : Input)
  /-- Models `animate()` -/
  | frame (inp : Input) (roll : α) (r : Draws α)

/-- The effect of one event. -/
def Event.apply (H : Host α) : Event α → Game α → Game α
  | .spawnInitial rs, g => spawnInitialPedestrians H rs g
  | .spawn initialSpawn r, g => spawnPedestrian H initialSpawn r g
  | .timer r, g => respawnTimer H r g
  | .collision, g => checkCollision g
  | .move inp, g => updateCarMovement H inp g
  | .frame inp roll r, g => animate H inp roll r g

/-- The state after a sequence of events. -/
def runEvents (H : Host α) (evs : List (Event α)) (g : Game α) : Game α :=
  evs.foldl (fun g e => e.apply H g) g

end Model

section Theorems

variable {α : Type} [LinearOrderedField α]

/-! ## Car speed -/

theorem nextSpeed_bounds (inp : Input) (s : α) (h : -maxSpeed / 2 ≤ s ∧ s ≤ maxSpeed) :
    -maxSpeed / 2 ≤ nextSpeed inp s ∧ nextSpeed inp s ≤ maxSpeed := by
  obtain ⟨h1, h2⟩ := h
  unfold nextSpeed
  simp only [maxSpeed, acceleration] at *
  split_ifs with hf hb hd
  · refine ⟨le_min ?_ ?_, min_le_right _ _⟩ <;> linarith
  · refine ⟨le_max_right _ _, max_le ?_ ?_⟩ <;> linarith
  · constructor
    · by_cases hs : 0 ≤ s
      · nlinarith
      · push_neg at hs; nlinarith
    · by_cases hs : 0 ≤ s
      · nlinarith
      · push_neg at hs; nlinarith
  · constructor <;> norm_num

theorem updateCarMovement_carSpeed (H : Host α) (inp : Input) (g : Game α) :
    (updateCarMovement H inp g).carSpeed = nextSpeed inp g.carSpeed := rfl

theorem updateCarMovement_rotationY (H : Host α) (inp : Input) (g : Game α) :
    (updateCarMovement H inp g).car.rotationY =
      nextRotation inp (effectiveRotationSpeed g.carSpeed) (nextSpeed inp g.carSpeed)
        g.car.rotationY := rfl

theorem updateCarMovementN_append (H : Host α) (xs ys : List Input) (g : Game α) :
    updateCarMovementN H (xs ++ ys) g = updateCarMovementN H ys (updateCarMovementN H xs g) := by
  simp [updateCarMovementN, List.foldl_append]

theorem updateCarMovementN_carSpeed (H : Host α) (inps : List Input) (g : Game α) :
    (updateCarMovementN H inps g).carSpeed = inps.foldl (fun s inp => nextSpeed inp s) g.carSpeed := by
  induction inps generalizing g with
  | nil => rfl
  | cons i is ih =>
    simp only [updateCarMovementN, List.foldl_cons] at ih ⊢
    rw [ih, updateCarMovement_carSpeed]

theorem foldl_nextSpeed_bounds (inps : List Input) (s : α)
    (h : -maxSpeed / 2 ≤ s ∧ s ≤ maxSpeed) :
    -maxSpeed / 2 ≤ inps.foldl (fun s inp => nextSpeed inp s) s ∧
      inps.foldl (fun s inp => nextSpeed inp s) s ≤ maxSpeed := by
  induction inps generalizing s with
  | nil => exact h
  | cons i is ih => exact ih _ (nextSpeed_bounds i s h)

/-- C1. Speed bound invariant: from `carSpeed = 0`, after any finite sequence of
`updateCarMovement` ticks with arbitrary input flags on each tick, the speed
satisfies `-maxSpeed/2 ≤ carSpeed ≤ maxSpeed`, i.e. `-0.2 ≤ carSpeed ≤ 0.4`, and
hence `|carSpeed| ≤ maxSpeed`. -/
theorem speed_bound_invariant (H : Host α) (inps : List Input) (g : Game α)
    (h0 : g.carSpeed = 0) :
    (-maxSpeed / 2 ≤ (updateCarMovementN H inps g).carSpeed ∧
      (updateCarMovementN H inps g).carSpeed ≤ maxSpeed) ∧
    (-0.2 ≤ (updateCarMovementN H inps g).carSpeed ∧
      (updateCarMovementN H inps g).carSpeed ≤ 0.4) ∧
    |(updateCarMovementN H inps g).carSpeed| ≤ maxSpeed := by
  have hb := foldl_nextSpeed_bounds inps g.carSpeed (by rw [h0]; norm_num [maxSpeed])
  rw [← updateCarMovementN_carSpeed H] at hb
  obtain ⟨h1, h2⟩ := hb
  refine ⟨⟨h1, h2⟩, ⟨?_, ?_⟩, abs_le.mpr ⟨?_, h2⟩⟩
  · norm_num [maxSpeed] at h1; linarith
  · norm_num [maxSpeed] at h2; linarith
  · norm_num [maxSpeed] at h1 ⊢; linarith

theorem speed_bound_invariant_witness :
    (initial : Game ℚ).carSpeed = 0 ∧
    |(updateCarMovementN ratHost [⟨true, false, true, false⟩, ⟨false, true, false, true⟩]
        (initial : Game ℚ)).carSpeed| ≤ maxSpeed :=
  ⟨rfl, (speed_bound_invariant ratHost _ initial rfl).2.2⟩

/-! ## Road clamp -/

theorem clamp_bounds (v lo hi : α) (h : lo ≤ hi) :
    lo ≤ clamp v lo hi ∧ clamp v lo hi ≤ hi :=
  ⟨le_max_left _ _, max_le h (min_le_left _ _)⟩

theorem nextPosition_bounds (H : Host α) (s r : α) (p : Vector3 α) :
    (-8 ≤ (nextPosition H s r p).x ∧ (nextPosition H s r p).x ≤ 8) ∧
    (-190 ≤ (nextPosition H s r p).z ∧ (nextPosition H s r p).z ≤ 190) := by
  constructor
  · exact clamp_bounds _ (-roadBoundaryX) roadBoundaryX (by norm_num [roadBoundaryX])
  · exact clamp_bounds _ (-roadBoundaryZ) roadBoundaryZ (by norm_num [roadBoundaryZ])

/-- C2. Road clamp invariant: for every state (any position, heading and speed)
and every combination of input flags, after one `updateCarMovement` tick the car
position has `-8 ≤ x ≤ 8` and `-190 ≤ z ≤ 190`; hence the same holds after the
last tick of every non-empty tick sequence `inps ++ [inp]`. -/
theorem road_clamp_invariant (H : Host α) (g : Game α) (inp : Input) (inps : List Input) :
    ((-8 ≤ (updateCarMovement H inp g).car.position.x ∧
        (updateCarMovement H inp g).car.position.x ≤ 8) ∧
      (-190 ≤ (updateCarMovement H inp g).car.position.z ∧
        (updateCarMovement H inp g).car.position.z ≤ 190)) ∧
    ((-8 ≤ (updateCarMovementN H (inps ++ [inp]) g).car.position.x ∧
        (updateCarMovementN H (inps ++ [inp]) g).car.position.x ≤ 8) ∧
      (-190 ≤ (updateCarMovementN H (inps ++ [inp]) g).car.position.z ∧
        (updateCarMovementN H (inps ++ [inp]) g).car.position.z ≤ 190)) := by
  refine ⟨nextPosition_bounds H _ _ _, ?_⟩
  rw [updateCarMovementN_append]
  exact nextPosition_bounds H _ _ _

/-! ## Turning -/

/-- C6. Turning is gated by speed: if the speed produced by the tick's
longitudinal step has `|speed| ≤ 0.01`, then `updateCarMovement` leaves
`car.rotation.y` unchanged, whatever `turnLeft` and `turnRight` are. -/
theorem turning_gated_by_speed (H : Host α) (inp : Input) (g : Game α)
    (h : |nextSpeed inp g.carSpeed| ≤ 0.01) :
    (updateCarMovement H inp g).car.rotationY = g.car.rotationY := by
  rw [updateCarMovement_rotationY]
  unfold nextRotation
  rw [if_neg (not_lt.mpr h)]

theorem turning_gated_by_speed_witness :
    |nextSpeed ⟨false, false, true, false⟩ (initial : Game ℚ).carSpeed| ≤ 0.01 ∧
    (updateCarMovement ratHost ⟨false, false, true, false⟩ (initial : Game ℚ)).car.rotationY
      = (initial : Game ℚ).car.rotationY :=
  ⟨by norm_num [nextSpeed, initial],
    turning_gated_by_speed ratHost _ initial (by norm_num [nextSpeed, initial])⟩

/-- C7 as stated fails: from rest with `moveForward` and `turnLeft` held the
updated speed is `0.015 > 0.01`, the heading grows by `0.0075`, which is
`rotationSpeed * (|0| / maxSpeed + 0.3)` (the speed the tick started with) and
not `rotationSpeed * (|0.015| / maxSpeed + 0.3) = 0.0084375`. -/
theorem turn_rate_updated_speed_counterexample :
    |nextSpeed ⟨true, false, true, false⟩ (initial : Game ℚ).carSpeed| > 0.01 ∧
    (updateCarMovement ratHost ⟨true, false, true, false⟩ (initial : Game ℚ)).car.rotationY
      = (initial : Game ℚ).car.rotationY + 0.0075 ∧
    (updateCarMovement ratHost ⟨true, false, true, false⟩ (initial : Game ℚ)).car.rotationY
      ≠ (initial : Game ℚ).car.rotationY +
          rotationSpeed *
            (|nextSpeed ⟨true, false, true, false⟩ (initial : Game ℚ).carSpeed| / maxSpeed + 0.3) := by
  norm_num [updateCarMovement, nextRotation, nextSpeed, effectiveRotationSpeed, initial,
    acceleration, maxSpeed, rotationSpeed, abs_of_pos]

/-- C7 (amended). When the speed after the tick's longitudinal step has
`|speed| > 0.01`, a tick with `turnLeft` held and `turnRight` not held increases
the heading by exactly `rotationSpeed * (|s| / maxSpeed + 0.3)
= 0.025 * (|s| / 0.4 + 0.3)` where `s` is the speed the tick STARTED with;
with `turnRight` held instead the heading decreases by the same amount; with
both held the increase and then the decrease are applied, which sum to no
change. -/
theorem turn_rate_start_speed (H : Host α) (inp : Input) (g : Game α)
    (h : |nextSpeed inp g.carSpeed| > 0.01) :
    effectiveRotationSpeed g.carSpeed = 0.025 * (|g.carSpeed| / 0.4 + 0.3) ∧
    (inp.turnLeft = true → inp.turnRight = false →
      (updateCarMovement H inp g).car.rotationY
        = g.car.rotationY + rotationSpeed * (|g.carSpeed| / maxSpeed + 0.3)) ∧
    (inp.turnLeft = false → inp.turnRight = true →
      (updateCarMovement H inp g).car.rotationY
        = g.car.rotationY - rotationSpeed * (|g.carSpeed| / maxSpeed + 0.3)) ∧
    (inp.turnLeft = true → inp.turnRight = true →
      (updateCarMovement H inp g).car.rotationY
        = g.car.rotationY + rotationSpeed * (|g.carSpeed| / maxSpeed + 0.3)
            - rotationSpeed * (|g.carSpeed| / maxSpeed + 0.3) ∧
      (updateCarMovement H inp g).car.rotationY = g.car.rotationY) ∧
    (inp.turnLeft = false → inp.turnRight = false →
      (updateCarMovement H inp g).car.rotationY = g.car.rotationY) := by
  rw [updateCarMovement_rotationY]
  unfold nextRotation
  rw [if_pos h]
  refine ⟨rfl, ?_, ?_, ?_, ?_⟩ <;> intro hl hr <;> simp [hl, hr, effectiveRotationSpeed]

theorem turn_rate_start_speed_witness :
    |nextSpeed ⟨true, false, true, false⟩ (initial : Game ℚ).carSpeed| > 0.01 ∧
    (updateCarMovement ratHost ⟨true, false, true, false⟩ (initial : Game ℚ)).car.rotationY
      = (initial : Game ℚ).car.rotationY +
          rotationSpeed * (|(initial : Game ℚ).carSpeed| / maxSpeed + 0.3) :=
  ⟨by norm_num [nextSpeed, initial, acceleration, maxSpeed, abs_of_pos],
    (turn_rate_start_speed ratHost ⟨true, false, true, false⟩ initial
      (by norm_num [nextSpeed, initial, acceleration, maxSpeed, abs_of_pos])).2.1 rfl rfl⟩

/-! ## Coasting -/

theorem nextSpeed_forward (inp : Input) (hf : inp.moveForward = true) (s : α) :
    nextSpeed inp s = min (s + acceleration) maxSpeed := by
  simp [nextSpeed, hf]

theorem nextSpeed_released (inp : Input) (hf : inp.moveForward = false)
    (hb : inp.moveBackward = false) (s : α) :
    nextSpeed inp s = if |s| > 0.01 then s * 0.97 else 0 := by
  simp [nextSpeed, hf, hb]

/-- With `moveForward` held for `n` ticks from rest the speed is
`min (n * acceleration) maxSpeed`. -/
theorem foldl_nextSpeed_forward (inps : List Input)
    (hf : ∀ inp ∈ inps, inp.moveForward = true) (k : ℕ) :
    inps.foldl (fun s inp => nextSpeed inp s) (min ((k : α) * acceleration) maxSpeed)
      = min (((k + inps.length : ℕ) : α) * acceleration) maxSpeed := by
  induction inps generalizing k with
  | nil => simp
  | cons i is ih =>
    have hi : i.moveForward = true := hf i (List.mem_cons_self _ _)
    have his : ∀ inp ∈ is, inp.moveForward = true := fun x hx => hf x (List.mem_cons_of_mem _ hx)
    have step : nextSpeed i (min ((k : α) * acceleration) maxSpeed)
        = min (((k + 1 : ℕ) : α) * acceleration) maxSpeed := by
      rw [nextSpeed_forward i hi]
      have ha : (0 : α) ≤ acceleration := by norm_num [acceleration]
      push_cast
      rw [add_mul, one_mul, ← min_add_add_right, min_assoc]
      congr 1
      exact min_eq_right (by linarith)
    simp only [List.foldl_cons, List.length_cons]
    rw [step, ih his (k + 1)]
    congr 3
    omega

/-- Without forward or backward input the magnitude of the speed shrinks at
least by the factor `0.97` per tick. -/
theorem foldl_nextSpeed_released_le (inps : List Input)
    (hr : ∀ inp ∈ inps, inp.moveForward = false ∧ inp.moveBackward = false) (s : α) :
    |inps.foldl (fun s inp => nextSpeed inp s) s| ≤ |s| * 0.97 ^ inps.length := by
  induction inps generalizing s with
  | nil => simp
  | cons i is ih =>
    obtain ⟨hf, hb⟩ := hr i (List.mem_cons_self _ _)
    have his := fun x hx => hr x (List.mem_cons_of_mem i hx)
    simp only [List.foldl_cons, List.length_cons]
    refine (ih his _).trans ?_
    have hstep : |nextSpeed i s| ≤ |s| * 0.97 := by
      rw [nextSpeed_released i hf hb]
      split_ifs
      · rw [abs_mul, abs_of_pos (by norm_num : (0 : α) < 0.97)]
      · rw [abs_zero]; exact mul_nonneg (abs_nonneg s) (by norm_num)
    calc |nextSpeed i s| * 0.97 ^ is.length
        ≤ (|s| * 0.97) * 0.97 ^ is.length :=
          mul_le_mul_of_nonneg_right hstep (pow_nonneg (by norm_num) _)
      _ = |s| * 0.97 ^ (is.length + 1) := by rw [pow_succ]; ring

/-- Without forward or backward input, a speed of magnitude at most `0.01` is
`0` after any positive number of ticks. -/
theorem foldl_nextSpeed_released_zero (inps : List Input) (hne : inps ≠ [])
    (hr : ∀ inp ∈ inps, inp.moveForward = false ∧ inp.moveBackward = false) (s : α)
    (hs : |s| ≤ 0.01) :
    inps.foldl (fun s inp => nextSpeed inp s) s = 0 := by
  induction inps generalizing s with
  | nil => exact absurd rfl hne
  | cons i is ih =>
    obtain ⟨hf, hb⟩ := hr i (List.mem_cons_self _ _)
    have his := fun x hx => hr x (List.mem_cons_of_mem i hx)
    have h0 : nextSpeed i s = 0 := by
      rw [nextSpeed_released i hf hb, if_neg (not_lt.mpr hs)]
    simp only [List.foldl_cons, h0]
    by_cases hnil : is = []
    · subst hnil; rfl
    · exact ih hnil his 0 (by norm_num)

theorem foldl_nextSpeed_coast (inps : List Input)
    (hr : ∀ inp ∈ inps, inp.moveForward = false ∧ inp.moveBackward = false)
    (hlen : 123 ≤ inps.length) (s : α) (hs : -0.2 ≤ s ∧ s ≤ 0.4) :
    inps.foldl (fun s inp => nextSpeed inp s) s = 0 := by
  have hsplit : inps = inps.take 122 ++ inps.drop 122 := (List.take_append_drop 122 inps).symm
  have htake : (inps.take 122).length = 122 := by rw [List.length_take]; omega
  have hdrop : inps.drop 122 ≠ [] := by
    intro h
    have := congrArg List.length h
    rw [List.length_drop] at this
    simp at this; omega
  rw [hsplit, List.foldl_append]
  apply foldl_nextSpeed_released_zero _ hdrop (fun x hx => hr x (List.mem_of_mem_drop hx))
  refine (foldl_nextSpeed_released_le _ (fun x hx => hr x (List.mem_of_mem_take hx)) s).trans ?_
  rw [htake]
  have habs : |s| ≤ 0.4 := abs_le.mpr ⟨by linarith [hs.1], hs.2⟩
  calc |s| * 0.97 ^ 122 ≤ 0.4 * 0.97 ^ 122 :=
        mul_le_mul_of_nonneg_right habs (pow_nonneg (by norm_num) _)
    _ ≤ 0.01 := by norm_num

/-- C8. Coast to an exact stop: from `carSpeed = 0`, after 30 ticks with
`moveForward` held the speed is exactly `maxSpeed = 0.4`; after that, and more
generally from every speed in `[-0.2, 0.4]`, every run of at least `123` ticks
without forward/backward input ends with `carSpeed` exactly `0` (so the speed
is `0` after finitely many ticks and stays `0` on every later such tick). In
one such tick the speed is multiplied by `0.97` if `|speed| > 0.01` and set to
`0` otherwise. -/
theorem coast_to_exact_stop (H : Host α) (g g2 : Game α) (accel coast : List Input)
    (h0 : g.carSpeed = 0)
    (hacc : accel.length = 30 ∧ ∀ inp ∈ accel, inp.moveForward = true)
    (hcoast : ∀ inp ∈ coast, inp.moveForward = false ∧ inp.moveBackward = false)
    (hlen : 123 ≤ coast.length)
    (h2 : -0.2 ≤ g2.carSpeed ∧ g2.carSpeed ≤ 0.4) :
    ((updateCarMovementN H accel g).carSpeed = maxSpeed ∧ (maxSpeed : α) = 0.4) ∧
    (updateCarMovementN H coast (updateCarMovementN H accel g)).carSpeed = 0 ∧
    (updateCarMovementN H coast g2).carSpeed = 0 ∧
    (∀ inp ∈ coast, (updateCarMovement H inp g2).carSpeed
        = if |g2.carSpeed| > 0.01 then g2.carSpeed * 0.97 else 0) := by
  have hacc' : (updateCarMovementN H accel g).carSpeed = maxSpeed := by
    rw [updateCarMovementN_carSpeed, h0]
    have := foldl_nextSpeed_forward (α := α) accel hacc.2 0
    rw [show min (((0 : ℕ) : α) * acceleration) maxSpeed = 0 by norm_num [maxSpeed]] at this
    rw [this, hacc.1]
    norm_num [acceleration, maxSpeed]
  refine ⟨⟨hacc', rfl⟩, ?_, ?_, ?_⟩
  · rw [updateCarMovementN_carSpeed, hacc']
    exact foldl_nextSpeed_coast coast hcoast hlen _ (by norm_num [maxSpeed])
  · rw [updateCarMovementN_carSpeed]
    exact foldl_nextSpeed_coast coast hcoast hlen _ h2
  · intro inp hinp
    rw [updateCarMovement_carSpeed]
    exact nextSpeed_released inp (hcoast inp hinp).1 (hcoast inp hinp).2 _

theorem coast_to_exact_stop_witness :
    (updateCarMovementN ratHost (List.replicate 123 ⟨false, false, false, false⟩)
      (updateCarMovementN ratHost (List.replicate 30 ⟨true, false, false, false⟩)
        (initial : Game ℚ))).carSpeed = 0 :=
  (coast_to_exact_stop ratHost initial initial (List.replicate 30 ⟨true, false, false, false⟩)
    (List.replicate 123 ⟨false, false, false, false⟩) rfl
    ⟨by simp, fun inp h => by rw [List.eq_of_mem_replicate h]⟩
    (fun inp h => by rw [List.eq_of_mem_replicate h]; exact ⟨rfl, rfl⟩)
    (by simp) (by norm_num [initial])).2.1

/-! ## Collisions -/

theorem distanceLt_iff (a b : Vector3 α) (t : α) :
    a.distanceLt b t = true ↔ a.distanceToSquared b < t * t := by
  simp [Vector3.distanceLt]

/-- The real-number reading of `distanceLt`: for a positive threshold, the
square root of the squared distance is below `t` exactly when the squared
distance is below `t * t`. -/
theorem sqrt_distance_lt_iff (a b : Vector3 ℝ) (t : ℝ) (ht : 0 < t) :
    Real.sqrt (a.distanceToSquared b) < t ↔ a.distanceLt b t = true := by
  rw [distanceLt_iff, Real.sqrt_lt' ht, sq]

theorem collisionScan_none (c : Vector3 α) (ps : List (Vector3 α)) (n : ℕ)
    (h : collisionScan c ps n = none) :
    ∀ i < n, ∀ p, ps[i]? = some p → ¬ c.distanceToSquared p < collisionThreshold * collisionThreshold := by
  induction n with
  | zero => intro i hi; omega
  | succ n ih =>
    intro i hi p hp
    unfold collisionScan at h
    rcases Nat.lt_succ_iff_lt_or_eq.mp hi with hlt | rfl
    · cases hq : ps[n]? with
      | none => rw [hq] at h; exact ih h i hlt p hp
      | some q =>
        rw [hq] at h
        simp only at h
        split_ifs at h
        exact ih h i hlt p hp
    · rw [hp] at h
      simp only at h
      split_ifs at h with hd
      rwa [distanceLt_iff] at hd

theorem collisionScan_some (c : Vector3 α) (ps : List (Vector3 α)) (n i : ℕ)
    (h : collisionScan c ps n = some i) :
    i < n ∧ ∃ p, ps[i]? = some p ∧ c.distanceToSquared p < collisionThreshold * collisionThreshold := by
  induction n with
  | zero => simp [collisionScan] at h
  | succ n ih =>
    unfold collisionScan at h
    cases hq : ps[n]? with
    | none =>
      rw [hq] at h
      obtain ⟨h1, h2⟩ := ih h
      exact ⟨Nat.lt_succ_of_lt h1, h2⟩
    | some q =>
      rw [hq] at h
      simp only at h
      split_ifs at h with hd
      · rw [distanceLt_iff] at hd
        obtain rfl : n = i := by simpa using h
        exact ⟨Nat.lt_succ_self _, q, hq, hd⟩
      · obtain ⟨h1, h2⟩ := ih h
        exact ⟨Nat.lt_succ_of_lt h1, h2⟩

/-- The two outcomes of `checkCollision`. -/
theorem checkCollision_cases (g : Game α) :
    ((∀ p ∈ g.pedestrians,
        ¬ g.car.position.distanceToSquared p < collisionThreshold * collisionThreshold) ∧
      checkCollision g = g) ∨
    (∃ i p, g.pedestrians[i]? = some p ∧
      g.car.position.distanceToSquared p < collisionThreshold * collisionThreshold ∧
      checkCollision g =
        { g with hitCount := g.hitCount + 1,
                 pedestrians := g.pedestrians.eraseIdx i,
                 pendingRespawns := g.pendingRespawns + 1 }) := by
  unfold checkCollision
  by_cases h0 : g.pedestrians.length = 0
  · left
    rw [if_pos h0]
    refine ⟨?_, rfl⟩
    intro p hp
    rw [List.length_eq_zero.mp h0] at hp
    simp at hp
  · rw [if_neg h0]
    cases hs : collisionScan g.car.position g.pedestrians g.pedestrians.length with
    | none =>
      left
      refine ⟨?_, rfl⟩
      intro p hp
      obtain ⟨i, hi, rfl⟩ := List.getElem_of_mem hp
      exact collisionScan_none _ _ _ hs i hi _ (List.getElem?_eq_getElem hi)
    | some i =>
      right
      obtain ⟨_, p, hp, hd⟩ := collisionScan_some _ _ _ _ hs
      exact ⟨i, p, hp, hd, rfl⟩

/-- C3. At most one hit per call: one `checkCollision` either (a) finds no
pedestrian at distance `< 1.8` from the car and leaves the whole state (pool,
`hitCount`, scheduled respawns) unchanged, or (b) removes exactly one
pedestrian, which was at distance `< 1.8`, increases `hitCount` by exactly `1`
and schedules exactly one respawn. So `hitCount` never decreases and never
grows by more than `1` in a call, however many pedestrians are in range.
(Distance `< 1.8` is squared distance `< 1.8 * 1.8`.) -/
theorem at_most_one_hit_per_call (g : Game α) :
    (((∀ p ∈ g.pedestrians, ¬ g.car.position.distanceToSquared p < 1.8 * 1.8) ∧
        checkCollision g = g) ∨
      (∃ i p, g.pedestrians[i]? = some p ∧
        g.car.position.distanceToSquared p < 1.8 * 1.8 ∧
        (checkCollision g).pedestrians = g.pedestrians.eraseIdx i ∧
        (checkCollision g).pedestrians.length + 1 = g.pedestrians.length ∧
        (checkCollision g).hitCount = g.hitCount + 1 ∧
        (checkCollision g).pendingRespawns = g.pendingRespawns + 1)) ∧
    g.hitCount ≤ (checkCollision g).hitCount ∧
    (checkCollision g).hitCount ≤ g.hitCount + 1 := by
  rcases checkCollision_cases g with ⟨h1, h2⟩ | ⟨i, p, hp, hd, he⟩
  · refine ⟨Or.inl ⟨h1, h2⟩, ?_, ?_⟩ <;> simp [h2]
  · have hi : i < g.pedestrians.length := (List.getElem?_eq_some_iff.mp hp).1
    refine ⟨Or.inr ⟨i, p, hp, hd, ?_, ?_, ?_, ?_⟩, ?_, ?_⟩ <;> rw [he] <;> simp
    exact List.length_eraseIdx_add_one hi

/-! ## Pool size -/

theorem spawnPedestrian_full (H : Host α) (initialSpawn : Bool) (r : Draws α) (g : Game α)
    (h : maxPedestrians ≤ g.pedestrians.length) : spawnPedestrian H initialSpawn r g = g := by
  unfold spawnPedestrian
  rw [if_pos h]

/-- The three outcomes of `spawnPedestrian`: pool full, candidate too close, or
the candidate appended to a pool that was not full and had no pedestrian
within `3.0` of it. -/
theorem spawnPedestrian_cases (H : Host α) (initialSpawn : Bool) (r : Draws α) (g : Game α) :
    spawnPedestrian H initialSpawn r g = g ∨
    (g.pedestrians.length < maxPedestrians ∧
      tooClose g.pedestrians (spawnPos H initialSpawn r g.car) = false ∧
      spawnPedestrian H initialSpawn r g =
        { g with pedestrians := g.pedestrians ++ [spawnPos H initialSpawn r g.car] }) := by
  unfold spawnPedestrian
  by_cases h : g.pedestrians.length ≥ maxPedestrians
  · left; rw [if_pos h]
  · rw [if_neg h]
    cases ht : tooClose g.pedestrians (spawnPos H initialSpawn r g.car)
    · right; exact ⟨not_le.mp h, rfl, by simp [ht]⟩
    · left; simp [ht]

theorem spawnPedestrian_length (H : Host α) (initialSpawn : Bool) (r : Draws α) (g : Game α)
    (h : g.pedestrians.length ≤ maxPedestrians) :
    (spawnPedestrian H initialSpawn r g).pedestrians.length ≤ maxPedestrians := by
  rcases spawnPedestrian_cases H initialSpawn r g with he | ⟨hl, _, he⟩
  · rwa [he]
  · rw [he]; simp only [List.length_append, List.length_singleton]; omega

theorem checkCollision_sublist (g : Game α) :
    (checkCollision g).pedestrians.Sublist g.pedestrians := by
  rcases checkCollision_cases g with ⟨_, h2⟩ | ⟨i, p, _, _, he⟩
  · rw [h2]
  · rw [he]; exact List.eraseIdx_sublist _ _

theorem checkCollision_car (g : Game α) : (checkCollision g).car = g.car := by
  rcases checkCollision_cases g with ⟨_, h2⟩ | ⟨i, p, _, _, he⟩ <;> simp [*]

/-- Any property of the pool that holds for the pool it starts from, survives
taking a sublist and survives a successful spawn, holds for the pool after
every event. -/
theorem Event.apply_pool_induction (H : Host α) (P : List (Vector3 α) → Prop)
    (hsub : ∀ l l2 : List (Vector3 α), l2.Sublist l → P l → P l2)
    (hspawn : ∀ (l : List (Vector3 α)) (p : Vector3 α), l.length < maxPedestrians →
      tooClose l p = false → P l → P (l ++ [p]))
    (e : Event α) (g : Game α) (h : P g.pedestrians) : P (e.apply H g).pedestrians := by
  have hsp : ∀ (i : Bool) (r : Draws α) (g : Game α), P g.pedestrians →
      P (spawnPedestrian H i r g).pedestrians := by
    intro i r g hg
    rcases spawnPedestrian_cases H i r g with he | ⟨hl, ht, he⟩
    · rwa [he]
    · rw [he]; exact hspawn _ _ hl ht hg
  have hcol : ∀ g : Game α, P g.pedestrians → P (checkCollision g).pedestrians :=
    fun g hg => hsub _ _ (checkCollision_sublist g) hg
  cases e with
  | spawnInitial rs =>
    simp only [Event.apply, spawnInitialPedestrians]
    generalize List.range maxPedestrians = l
    induction l generalizing g with
    | nil => exact h
    | cons i is ih => exact ih _ (hsp _ _ _ h)
  | spawn i r => exact hsp i r g h
  | timer r =>
    simp only [Event.apply, respawnTimer]
    split_ifs
    · exact h
    · exact hsp false r g h
  | collision => exact hcol g h
  | move inp => exact h
  | frame inp roll r =>
    simp only [Event.apply, animate]
    have h1 : P (updateCamera H (checkCollision (updateCarMovement H inp g))).pedestrians :=
      hcol (updateCarMovement H inp g) h
    split_ifs
    · exact hsp false r _ h1
    · exact h1

theorem runEvents_pool_induction (H : Host α) (P : List (Vector3 α) → Prop)
    (hsub : ∀ l l2 : List (Vector3 α), l2.Sublist l → P l → P l2)
    (hspawn : ∀ (l : List (Vector3 α)) (p : Vector3 α), l.length < maxPedestrians →
      tooClose l p = false → P l → P (l ++ [p]))
    (evs : List (Event α)) (g : Game α) (h : P g.pedestrians) :
    P (runEvents H evs g).pedestrians := by
  induction evs generalizing g with
  | nil => exact h
  | cons e es ih => exact ih _ (Event.apply_pool_induction H P hsub hspawn e g h)

/-- C4. Pool size invariant: starting from the empty pool, after any sequence of
`spawnInitialPedestrians`, `spawnPedestrian` (initial or not, for any random
draws, called directly, from `animate` or from a respawn timer),
`checkCollision` and `updateCarMovement` calls, `pedestrians.length ≤
maxPedestrians = 8`; and `spawnPedestrian` called on a pool of size `≥ 8`
changes nothing. -/
theorem pool_size_invariant (H : Host α) (evs : List (Event α)) (g : Game α)
    (hempty : g.pedestrians = [])
    (initialSpawn : Bool) (r : Draws α) (g2 : Game α) (hfull : 8 ≤ g2.pedestrians.length) :
    (runEvents H evs g).pedestrians.length ≤ maxPedestrians ∧ maxPedestrians = 8 ∧
    spawnPedestrian H initialSpawn r g2 = g2 := by
  refine ⟨?_, rfl, spawnPedestrian_full H initialSpawn r g2 hfull⟩
  apply runEvents_pool_induction H (fun l => l.length ≤ maxPedestrians)
  · intro l l2 hs hl
    exact hs.length_le.trans hl
  · intro l p hl _ _
    simp only [List.length_append, List.length_singleton]; omega
  · rw [hempty]; simp

theorem pool_size_invariant_witness :
    (runEvents ratHost [Event.spawnInitial (fun _ => ⟨0, 0, 0, 0, 0, 0, 0⟩), Event.collision]
        (initial : Game ℚ)).pedestrians.length ≤ maxPedestrians ∧
    spawnPedestrian ratHost false ⟨0, 0, 0, 0, 0, 0, 0⟩
        { (initial : Game ℚ) with pedestrians := List.replicate 8 ⟨0, 0, 0⟩ }
      = { (initial : Game ℚ) with pedestrians := List.replicate 8 ⟨0, 0, 0⟩ } :=
  ⟨(pool_size_invariant ratHost _ initial rfl false ⟨0, 0, 0, 0, 0, 0, 0⟩
      { (initial : Game ℚ) with pedestrians := List.replicate 8 ⟨0, 0, 0⟩ } (by simp)).1,
    (pool_size_invariant ratHost [] initial rfl false ⟨0, 0, 0, 0, 0, 0, 0⟩
      { (initial : Game ℚ) with pedestrians := List.replicate 8 ⟨0, 0, 0⟩ } (by simp)).2.2⟩

/-! ## Minimum separation -/

theorem tooClose_eq_true_iff (l : List (Vector3 α)) (p : Vector3 α) :
    tooClose l p = true ↔ ∃ q ∈ l, q.distanceToSquared p < 3.0 * 3.0 := by
  simp [tooClose, Vector3.distanceLt]

theorem tooClose_eq_false_iff (l : List (Vector3 α)) (p : Vector3 α) :
    tooClose l p = false ↔ ∀ q ∈ l, 3.0 * 3.0 ≤ q.distanceToSquared p := by
  rw [← Bool.not_eq_true, tooClose_eq_true_iff]
  push_neg
  rfl

theorem distanceToSquared_comm (a b : Vector3 α) :
    a.distanceToSquared b = b.distanceToSquared a := by
  unfold Vector3.distanceToSquared; ring

/-- C5. Minimum separation: whenever `spawnPedestrian` adds a pedestrian, its
distance to every pedestrian already in the pool is `≥ 3.0`; a candidate at
distance `< 3.0` from some pedestrian of the pool is discarded and the state is
unchanged. Consequently, in every state reached from an empty pool by spawn,
timer, collision, movement and frame events, any two distinct pedestrians of
the pool are at least `3.0` apart. (Distance `≥ 3.0` is squared distance
`≥ 3.0 * 3.0`.) -/
theorem minimum_separation (H : Host α) (initialSpawn : Bool) (r : Draws α) (g : Game α)
    (evs : List (Event α)) (g0 : Game α) (hempty : g0.pedestrians = []) :
    (∀ p, (spawnPedestrian H initialSpawn r g).pedestrians = g.pedestrians ++ [p] →
      p = spawnPos H initialSpawn r g.car ∧
      ∀ q ∈ g.pedestrians, 3.0 * 3.0 ≤ q.distanceToSquared p) ∧
    ((∃ q ∈ g.pedestrians, q.distanceToSquared (spawnPos H initialSpawn r g.car) < 3.0 * 3.0) →
      spawnPedestrian H initialSpawn r g = g) ∧
    (∀ (i j : ℕ) (p q : Vector3 α), i ≠ j → (runEvents H evs g0).pedestrians[i]? = some p →
      (runEvents H evs g0).pedestrians[j]? = some q → 3.0 * 3.0 ≤ p.distanceToSquared q) := by
  refine ⟨?_, ?_, ?_⟩
  · intro p hp
    rcases spawnPedestrian_cases H initialSpawn r g with he | ⟨_, ht, he⟩
    · rw [he] at hp
      have := congrArg List.length hp
      simp at this
    · rw [he] at hp
      have hp2 : spawnPos H initialSpawn r g.car = p := by simpa using hp
      rw [tooClose_eq_false_iff] at ht
      exact ⟨hp2.symm, hp2 ▸ ht⟩
  · intro hclose
    rcases spawnPedestrian_cases H initialSpawn r g with he | ⟨_, ht, _⟩
    · exact he
    · rw [← tooClose_eq_true_iff, ht] at hclose
      exact absurd hclose (by simp)
  · have hpw : List.Pairwise (fun p q : Vector3 α => 3.0 * 3.0 ≤ p.distanceToSquared q)
        (runEvents H evs g0).pedestrians := by
      apply runEvents_pool_induction H
        (List.Pairwise (fun p q : Vector3 α => 3.0 * 3.0 ≤ p.distanceToSquared q))
      · intro l l2 hs hl
        exact hl.sublist hs
      · intro l p _ ht hl
        rw [tooClose_eq_false_iff] at ht
        rw [List.pairwise_append]
        refine ⟨hl, List.pairwise_singleton _ _, ?_⟩
        intro a ha b hb
        rw [List.mem_singleton.mp hb]
        exact ht a ha
      · rw [hempty]; exact List.Pairwise.nil
    rw [List.pairwise_iff_getElem] at hpw
    intro i j p q hij hp hq
    obtain ⟨hi, rfl⟩ := List.getElem?_eq_some_iff.mp hp
    obtain ⟨hj, rfl⟩ := List.getElem?_eq_some_iff.mp hq
    rcases Nat.lt_or_gt_of_ne hij with hlt | hgt
    · exact hpw i j hi hj hlt
    · rw [distanceToSquared_comm]
      exact hpw j i hj hi hgt

theorem minimum_separation_witness :
    (initial : Game ℚ).pedestrians = [] ∧
    ∀ (i j : ℕ) (p q : Vector3 ℚ), i ≠ j →
      (runEvents ratHost [Event.spawn false ⟨0, 0, 0, 0, 0, 0, 0⟩, Event.spawn false ⟨0, 0, 0, 3 / 4, 0, 0, 0⟩]
        (initial : Game ℚ)).pedestrians[i]? = some p →
      (runEvents ratHost [Event.spawn false ⟨0, 0, 0, 0, 0, 0, 0⟩, Event.spawn false ⟨0, 0, 0, 3 / 4, 0, 0, 0⟩]
        (initial : Game ℚ)).pedestrians[j]? = some q → 3.0 * 3.0 ≤ p.distanceToSquared q :=
  ⟨rfl, (minimum_separation ratHost false ⟨0, 0, 0, 0, 0, 0, 0⟩ initial _ initial rfl).2.2⟩

/-! ## Lateral spawn offset -/

theorem spawnPos_x (H : Host α) (initialSpawn : Bool) (r : Draws α) (car : Car α) :
    (spawnPos H initialSpawn r car).x = (r.side - 0.5) * (roadBoundaryX * 2 * 0.9) := rfl

theorem spawnPos_y (H : Host α) (initialSpawn : Bool) (r : Draws α) (car : Car α) :
    (spawnPos H initialSpawn r car).y = 0.85 := rfl

/-- C10 as stated fails: the smallest draw `r = 0` places the pedestrian at
`x = -7.2`, and no draw in `[0, 1)` places one at `x = -14.4` or at `x = 10`,
two points of the interval from `-14.4` to `+14.4`. -/
theorem lateral_offset_range_counterexample :
    (spawnPedestrian ratHost false ⟨0, 0, 0, 0, 0, 0, 0⟩ (initial : Game ℚ)).pedestrians
      = [⟨-7.2, 0.85, -20⟩] ∧
    (¬ ∃ r : Draws ℚ, r.Valid ∧ (spawnPos ratHost false r (initial : Game ℚ).car).x = -14.4) ∧
    (¬ ∃ r : Draws ℚ, r.Valid ∧ (spawnPos ratHost false r (initial : Game ℚ).car).x = 10) := by
  refine ⟨?_, ?_, ?_⟩
  · norm_num [spawnPedestrian, spawnPos, tooClose, initial, maxPedestrians, ratHost,
      Vector3.add, Vector3.multiplyScalar, Vector3.applyYaw, roadBoundaryX]
  · rintro ⟨r, hv, hx⟩
    obtain ⟨_, _, _, ⟨h0, h1⟩, _⟩ := hv
    rw [spawnPos_x] at hx
    norm_num [roadBoundaryX] at hx
    linarith
  · rintro ⟨r, hv, hx⟩
    obtain ⟨_, _, _, ⟨h0, h1⟩, _⟩ := hv
    rw [spawnPos_x] at hx
    norm_num [roadBoundaryX] at hx
    linarith

/-- C10 (amended). The `x` coordinate of a pedestrian placed by
`spawnPedestrian` is the absolute value `(r - 0.5) * (roadBoundaryX * 2 * 0.9)
= (r - 0.5) * 14.4` for the lateral draw `r`: it is the same for every car
position and heading, and over the draws `r` in `[0, 1)` it ranges over exactly
the half-open interval `[-7.2, 7.2)`, i.e. from `-0.9 * roadBoundaryX` to
`+0.9 * roadBoundaryX`: every such draw gives a value in it and every value `x`
in it is the coordinate placed for some such draw. The `y` coordinate is always
`0.85`. -/
theorem lateral_spawn_offset (H : Host α) (initialSpawn : Bool) (r : Draws α) (g : Game α)
    (car2 : Car α) (x : α) (hr : 0 ≤ r.side ∧ r.side < 1) (hx : -7.2 ≤ x ∧ x < 7.2) :
    (∀ p, (spawnPedestrian H initialSpawn r g).pedestrians = g.pedestrians ++ [p] →
      p.x = (r.side - 0.5) * 14.4 ∧ p.x = (spawnPos H initialSpawn r car2).x ∧
      (-7.2 ≤ p.x ∧ p.x < 7.2) ∧ p.y = 0.85) ∧
    (∃ s, (0 ≤ s ∧ s < 1) ∧
      ∃ p, (spawnPedestrian H initialSpawn { r with side := s }
              { g with pedestrians := [] }).pedestrians = [p] ∧ p.x = x ∧ p.y = 0.85) := by
  have hw : (roadBoundaryX * 2 * 0.9 : α) = 14.4 := by norm_num [roadBoundaryX]
  constructor
  · intro p hp
    rcases spawnPedestrian_cases H initialSpawn r g with he | ⟨_, _, he⟩
    · rw [he] at hp
      have := congrArg List.length hp
      simp at this
    · rw [he] at hp
      have hp2 : spawnPos H initialSpawn r g.car = p := by simpa using hp
      subst hp2
      rw [spawnPos_x, spawnPos_x, spawnPos_y, hw]
      refine ⟨rfl, rfl, ⟨?_, ?_⟩, rfl⟩
      · linarith [hr.1]
      · linarith [hr.2]
  · refine ⟨x / 14.4 + 0.5, ⟨?_, ?_⟩, ?_⟩
    · linarith [div_le_div_of_nonneg_right hx.1 (by norm_num : (0 : α) ≤ 14.4),
        (by norm_num : (-7.2 : α) / 14.4 = -0.5)]
    · linarith [div_lt_div_of_pos_right hx.2 (by norm_num : (0 : α) < 14.4),
        (by norm_num : (7.2 : α) / 14.4 = 0.5)]
    · refine ⟨spawnPos H initialSpawn { r with side := x / 14.4 + 0.5 } g.car, ?_, ?_, rfl⟩
      · simp [spawnPedestrian, tooClose, maxPedestrians]
      · rw [spawnPos_x, hw]
        field_simp
        ring

theorem lateral_spawn_offset_witness :
    ∃ s : ℚ, (0 ≤ s ∧ s < 1) ∧
      ∃ p, (spawnPedestrian ratHost false { (⟨0, 0, 0, 0, 0, 0, 0⟩ : Draws ℚ) with side := s }
              { (initial : Game ℚ) with pedestrians := [] }).pedestrians = [p] ∧
        p.x = 3 ∧ p.y = 0.85 :=
  (lateral_spawn_offset ratHost false ⟨0, 0, 0, 0, 0, 0, 0⟩ initial initial.car 3
    ⟨by norm_num, by norm_num⟩ ⟨by norm_num, by norm_num⟩).2

/-! ## Driving straight into a pedestrian -/

theorem checkCollision_carSpeed (g : Game α) : (checkCollision g).carSpeed = g.carSpeed := by
  rcases checkCollision_cases g with ⟨_, h2⟩ | ⟨i, p, _, _, he⟩ <;> simp [*]

theorem animate_no_respawn (H : Host α) (inp : Input) (roll : α) (r : Draws α) (g : Game α)
    (h : 0.1 ≤ roll) :
    animate H inp roll r g = updateCamera H (checkCollision (updateCarMovement H inp g)) := by
  unfold animate
  simp only
  rw [if_neg]
  exact fun hc => absurd hc.2 (not_lt.mpr h)

theorem checkCollision_nil (g : Game α) (h : g.pedestrians = []) : checkCollision g = g := by
  simp [checkCollision, h]

theorem checkCollision_singleton (g : Game α) (p : Vector3 α) (h : g.pedestrians = [p]) :
    checkCollision g =
      if g.car.position.distanceToSquared p < 1.8 * 1.8 then
        { g with hitCount := g.hitCount + 1, pedestrians := [],
                 pendingRespawns := g.pendingRespawns + 1 }
      else g := by
  by_cases hd : g.car.position.distanceToSquared p < 1.8 * 1.8
  · simp [checkCollision, h, collisionScan, Vector3.distanceLt, collisionThreshold, hd]
  · simp [checkCollision, h, collisionScan, Vector3.distanceLt, collisionThreshold, hd]

/-- One tick with `moveForward` held and no turning, for a car on the centre
line with heading `0`: it stays on the centre line with heading `0`, the speed
becomes `min (carSpeed + acceleration) maxSpeed` and `z` decreases by it, down
to the clamp. -/
theorem updateCarMovement_straight (H : Host α) (hsin : H.sin 0 = 0) (hcos : H.cos 0 = 1)
    (inp : Input) (hf : inp.moveForward = true) (hl : inp.turnLeft = false)
    (hr : inp.turnRight = false) (g : Game α) (hrot : g.car.rotationY = 0)
    (hx : g.car.position.x = 0) :
    (updateCarMovement H inp g).car.rotationY = 0 ∧
    (updateCarMovement H inp g).car.position.x = 0 ∧
    (updateCarMovement H inp g).car.position.y = g.car.position.y ∧
    (updateCarMovement H inp g).car.position.z =
      clamp (g.car.position.z - min (g.carSpeed + acceleration) maxSpeed)
        (-roadBoundaryZ) roadBoundaryZ ∧
    (updateCarMovement H inp g).carSpeed = min (g.carSpeed + acceleration) maxSpeed := by
  have h1 : nextRotation inp (effectiveRotationSpeed g.carSpeed) (nextSpeed inp g.carSpeed)
      g.car.rotationY = 0 := by
    simp [nextRotation, hl, hr, hrot]
  refine ⟨h1, ?_, ?_, ?_, nextSpeed_forward inp hf _⟩
  · show clamp _ _ _ = 0
    rw [h1]
    simp [Vector3.addScaledVector, Vector3.applyYaw, hsin, hx, clamp, roadBoundaryX]
  · show _ + _ = _
    simp [Vector3.applyYaw]
  · show clamp _ _ _ = _
    rw [h1, nextSpeed_forward inp hf]
    simp [Vector3.addScaledVector, Vector3.applyYaw, hsin, hcos, sub_eq_add_neg]

theorem animateN_succ_no_respawn (H : Host α) (inp : ℕ → Input) (rolls : ℕ → α)
    (hrolls : ∀ k, 0.1 ≤ rolls k) (rs : ℕ → Draws α) (g0 : Game α) (k : ℕ) :
    animateN H inp rolls rs g0 (k + 1) =
      updateCamera H (checkCollision (updateCarMovement H (inp k) (animateN H inp rolls rs g0 k))) :=
  animate_no_respawn H _ _ _ _ (hrolls k)

/-- Along a run with `moveForward` held, no turning and no respawn, started on
the centre line at `z = 0` with heading `0` and speed `0`: the car stays on the
centre line with heading `0`, its speed is in `[0, 0.4]`, and after `k` ticks
`-190 ≤ z ≤ max (-190) (-(0.015 * k))`. -/
theorem straight_run_invariant (H : Host α) (hsin : H.sin 0 = 0) (hcos : H.cos 0 = 1)
    (inp : ℕ → Input)
    (hinp : ∀ k, (inp k).moveForward = true ∧ (inp k).turnLeft = false ∧ (inp k).turnRight = false)
    (rolls : ℕ → α) (hrolls : ∀ k, 0.1 ≤ rolls k) (rs : ℕ → Draws α) (g0 : Game α)
    (h0 : g0.car.rotationY = 0 ∧ g0.car.position.x = 0 ∧ g0.car.position.z = 0 ∧ g0.carSpeed = 0)
    (k : ℕ) :
    (animateN H inp rolls rs g0 k).car.rotationY = 0 ∧
    (animateN H inp rolls rs g0 k).car.position.x = 0 ∧
    (animateN H inp rolls rs g0 k).car.position.y = g0.car.position.y ∧
    (0 ≤ (animateN H inp rolls rs g0 k).carSpeed ∧
      (animateN H inp rolls rs g0 k).carSpeed ≤ 0.4) ∧
    (-190 ≤ (animateN H inp rolls rs g0 k).car.position.z ∧
      (animateN H inp rolls rs g0 k).car.position.z ≤ 0 ∧
      (animateN H inp rolls rs g0 k).car.position.z ≤ max (-190) (-(0.015 * (k : α)))) ∧
    (animateN H inp rolls rs g0 k).car.position.z - 0.4
      ≤ (animateN H inp rolls rs g0 (k + 1)).car.position.z := by
  have key : ∀ k, (animateN H inp rolls rs g0 k).car.rotationY = 0 ∧
      (animateN H inp rolls rs g0 k).car.position.x = 0 ∧
      (animateN H inp rolls rs g0 k).car.position.y = g0.car.position.y ∧
      (0 ≤ (animateN H inp rolls rs g0 k).carSpeed ∧
        (animateN H inp rolls rs g0 k).carSpeed ≤ 0.4) ∧
      (-190 ≤ (animateN H inp rolls rs g0 k).car.position.z ∧
        (animateN H inp rolls rs g0 k).car.position.z ≤ 0 ∧
        (animateN H inp rolls rs g0 k).car.position.z ≤ max (-190) (-(0.015 * (k : α)))) := by
    intro k
    induction k with
    | zero =>
      obtain ⟨a, b, c, d⟩ := h0
      have e : animateN H inp rolls rs g0 0 = g0 := rfl
      rw [e, c, d]
      refine ⟨a, b, rfl, ⟨le_rfl, by norm_num⟩, by norm_num, le_rfl, ?_⟩
      simp
    | succ k ih =>
      obtain ⟨a, b, c, ⟨d1, d2⟩, e1, e2, e3⟩ := ih
      obtain ⟨hf, hl, hr⟩ := hinp k
      obtain ⟨m1, m2, m3, m4, m5⟩ :=
        updateCarMovement_straight H hsin hcos (inp k) hf hl hr _ a b
      rw [animateN_succ_no_respawn H inp rolls hrolls rs g0 k]
      simp only [updateCamera, checkCollision_car, checkCollision_carSpeed]
      have hs1 : (0.015 : α) ≤ min ((animateN H inp rolls rs g0 k).carSpeed + acceleration) maxSpeed :=
        le_min (by norm_num [acceleration]; linarith) (by norm_num [maxSpeed])
      have hs2 : min ((animateN H inp rolls rs g0 k).carSpeed + acceleration) maxSpeed ≤ (0.4 : α) :=
        (min_le_right _ _).trans (by norm_num [maxSpeed])
      refine ⟨m1, m2, m3.trans c, ⟨?_, ?_⟩, ?_, ?_, ?_⟩
      · rw [m5]; linarith
      · rw [m5]; exact hs2
      · rw [m4]; exact (le_max_left _ _).trans_eq' (by norm_num [roadBoundaryZ])
      · rw [m4]
        exact max_le (by norm_num [roadBoundaryZ]) ((min_le_right _ _).trans (by linarith))
      · rw [m4]
        unfold clamp
        refine max_le (le_max_of_le_left (by norm_num [roadBoundaryZ])) ((min_le_right _ _).trans ?_)
        rcases le_max_iff.mp e3 with h | h
        · exact le_max_of_le_left (by linarith)
        · refine le_max_of_le_right ?_
          push_cast
          linarith
  refine ⟨(key k).1, (key k).2.1, (key k).2.2.1, (key k).2.2.2.1, (key k).2.2.2.2, ?_⟩
  obtain ⟨a, b, c, ⟨d1, d2⟩, e1, e2, e3⟩ := key k
  obtain ⟨hf, hl, hr⟩ := hinp k
  obtain ⟨m1, m2, m3, m4, m5⟩ :=
    updateCarMovement_straight H hsin hcos (inp k) hf hl hr _ a b
  rw [animateN_succ_no_respawn H inp rolls hrolls rs g0 k]
  simp only [updateCamera, checkCollision_car]
  rw [m4]
  have hs2 : min ((animateN H inp rolls rs g0 k).carSpeed + acceleration) maxSpeed ≤ (0.4 : α) :=
    (min_le_right _ _).trans (by norm_num [maxSpeed])
  exact le_max_of_le_right (le_min (by norm_num [roadBoundaryZ]; linarith) (by linarith))

/-- On a straight run the car comes within collision range of a pedestrian
standing on the centre line at `z = -d`, `1.8 ≤ d ≤ 190`: some tick moves the
car to squared distance `< 1.8 * 1.8` from it. -/
theorem straight_run_reaches (H : Host α) (hsin : H.sin 0 = 0) (hcos : H.cos 0 = 1)
    (d : α) (hd : 1.8 ≤ d ∧ d ≤ 190)
    (inp : ℕ → Input)
    (hinp : ∀ k, (inp k).moveForward = true ∧ (inp k).turnLeft = false ∧ (inp k).turnRight = false)
    (rolls : ℕ → α) (hrolls : ∀ k, 0.1 ≤ rolls k) (rs : ℕ → Draws α) (g0 : Game α)
    (hcar : g0.car = ⟨⟨0, 0.3, 0⟩, 0⟩) (hspeed : g0.carSpeed = 0) :
    ∃ j, (updateCarMovement H (inp j) (animateN H inp rolls rs g0 j)).car.position.distanceToSquared
        ⟨0, 0.85, -d⟩ < 1.8 * 1.8 := by
  have h0 : g0.car.rotationY = 0 ∧ g0.car.position.x = 0 ∧ g0.car.position.z = 0 ∧
      g0.carSpeed = 0 := by rw [hcar]; exact ⟨rfl, rfl, rfl, hspeed⟩
  have hI := straight_run_invariant H hsin hcos inp hinp rolls hrolls rs g0 h0
  have hM : ∀ k, (updateCarMovement H (inp k) (animateN H inp rolls rs g0 k)).car
      = (animateN H inp rolls rs g0 (k + 1)).car := by
    intro k
    rw [animateN_succ_no_respawn H inp rolls hrolls rs g0 k]
    simp only [updateCamera, checkCollision_car]
  have hP : ∃ k, (animateN H inp rolls rs g0 k).car.position.z + d < 1.7 := by
    refine ⟨12667, ?_⟩
    have hz := (hI 12667).2.2.2.2.1.2.2
    have hmax : max (-190 : α) (-(0.015 * ((12667 : ℕ) : α))) = -190 :=
      max_eq_left (by push_cast; norm_num)
    rw [hmax] at hz
    linarith [hd.2]
  have hm0 : Nat.find hP ≠ 0 := by
    intro h
    have hs := Nat.find_spec hP
    rw [h] at hs
    have e : animateN H inp rolls rs g0 0 = g0 := rfl
    rw [e, h0.2.2.1] at hs
    linarith [hd.1]
  obtain ⟨j, hj⟩ := Nat.exists_eq_succ_of_ne_zero hm0
  have hlt : (animateN H inp rolls rs g0 (j + 1)).car.position.z + d < 1.7 := by
    have hs := Nat.find_spec hP
    rwa [hj] at hs
  have hge : ¬ (animateN H inp rolls rs g0 j).car.position.z + d < 1.7 :=
    Nat.find_min hP (by rw [hj]; exact Nat.lt_succ_self j)
  have hstep := (hI j).2.2.2.2.2
  refine ⟨j, ?_⟩
  rw [hM j]
  obtain ⟨_, hx, hy, _, _, _⟩ := hI (j + 1)
  rw [hcar] at hy
  simp only [Vector3.distanceToSquared, hx, hy]
  push_neg at hge
  have h1 : 1.3 ≤ (animateN H inp rolls rs g0 (j + 1)).car.position.z + d := by linarith
  have hsq : ((animateN H inp rolls rs g0 (j + 1)).car.position.z - -d) *
      ((animateN H inp rolls rs g0 (j + 1)).car.position.z - -d) < 1.7 * 1.7 := by
    rw [sub_neg_eq_add]
    exact mul_self_lt_mul_self (by linarith) hlt
  norm_num at hsq ⊢
  linarith

/-- C9. No tunnelling through a pedestrian straight ahead: car at `(0, 0.3, 0)`
with heading `0` and speed `0`, the pool holding the single pedestrian
`(0, 0.85, -d)` with `1.8 ≤ d ≤ 190`, `moveForward` held on every tick with no
turning, and no respawn (every respawn roll of `animate` is `≥ 0.1`, no timer
fires). Then there is a tick `n + 1` whose `updateCarMovement` brings the car
to distance `< 1.8` of the pedestrian and whose `checkCollision` registers the
hit: up to tick `n` the pool, `hitCount` and the scheduled respawns are
unchanged, and after every later tick the pool is empty, `hitCount` is one more
than at the start and exactly one more respawn is scheduled, so exactly one
collision is registered over the whole run. (Distance `< 1.8` is squared
distance `< 1.8 * 1.8`; the heading enters through `sin 0 = 0`, `cos 0 = 1`.) -/
theorem no_tunnelling_straight_ahead (H : Host α) (hsin : H.sin 0 = 0) (hcos : H.cos 0 = 1)
    (d : α) (hd : 1.8 ≤ d ∧ d ≤ 190)
    (inp : ℕ → Input)
    (hinp : ∀ k, (inp k).moveForward = true ∧ (inp k).turnLeft = false ∧ (inp k).turnRight = false)
    (rolls : ℕ → α) (hrolls : ∀ k, 0.1 ≤ rolls k) (rs : ℕ → Draws α) (g0 : Game α)
    (hcar : g0.car = ⟨⟨0, 0.3, 0⟩, 0⟩) (hspeed : g0.carSpeed = 0)
    (hpool : g0.pedestrians = [⟨0, 0.85, -d⟩]) :
    ∃ n : ℕ,
      (∀ k, k ≤ n →
        (animateN H inp rolls rs g0 k).pedestrians = [⟨0, 0.85, -d⟩] ∧
        (animateN H inp rolls rs g0 k).hitCount = g0.hitCount ∧
        (animateN H inp rolls rs g0 k).pendingRespawns = g0.pendingRespawns) ∧
      (updateCarMovement H (inp n) (animateN H inp rolls rs g0 n)).car.position.distanceToSquared
        ⟨0, 0.85, -d⟩ < 1.8 * 1.8 ∧
      (∀ k, n < k →
        (animateN H inp rolls rs g0 k).pedestrians = [] ∧
        (animateN H inp rolls rs g0 k).hitCount = g0.hitCount + 1 ∧
        (animateN H inp rolls rs g0 k).pendingRespawns = g0.pendingRespawns + 1) := by
  have hHit := straight_run_reaches H hsin hcos d hd inp hinp rolls hrolls rs g0 hcar hspeed
  have hbefore : ∀ k, k ≤ Nat.find hHit →
      (animateN H inp rolls rs g0 k).pedestrians = [⟨0, 0.85, -d⟩] ∧
      (animateN H inp rolls rs g0 k).hitCount = g0.hitCount ∧
      (animateN H inp rolls rs g0 k).pendingRespawns = g0.pendingRespawns := by
    intro k
    induction k with
    | zero => intro _; exact ⟨hpool, rfl, rfl⟩
    | succ k ih =>
      intro hk
      obtain ⟨p1, p2, p3⟩ := ih (Nat.le_of_succ_le hk)
      have hno := Nat.find_min hHit (Nat.lt_of_succ_le hk)
      rw [animateN_succ_no_respawn H inp rolls hrolls rs g0 k,
        checkCollision_singleton (updateCarMovement H (inp k) (animateN H inp rolls rs g0 k))
          ⟨0, 0.85, -d⟩ p1, if_neg hno]
      exact ⟨p1, p2, p3⟩
  have hat : (animateN H inp rolls rs g0 (Nat.find hHit + 1)).pedestrians = [] ∧
      (animateN H inp rolls rs g0 (Nat.find hHit + 1)).hitCount = g0.hitCount + 1 ∧
      (animateN H inp rolls rs g0 (Nat.find hHit + 1)).pendingRespawns
        = g0.pendingRespawns + 1 := by
    obtain ⟨p1, p2, p3⟩ := hbefore _ le_rfl
    rw [animateN_succ_no_respawn H inp rolls hrolls rs g0 _,
      checkCollision_singleton
        (updateCarMovement H (inp (Nat.find hHit)) (animateN H inp rolls rs g0 (Nat.find hHit)))
        ⟨0, 0.85, -d⟩ p1, if_pos (Nat.find_spec hHit)]
    refine ⟨rfl, ?_, ?_⟩
    · show (animateN H inp rolls rs g0 (Nat.find hHit)).hitCount + 1 = _
      rw [p2]
    · show (animateN H inp rolls rs g0 (Nat.find hHit)).pendingRespawns + 1 = _
      rw [p3]
  refine ⟨Nat.find hHit, hbefore, Nat.find_spec hHit, ?_⟩
  intro k hk
  obtain ⟨m, rfl⟩ : ∃ m, k = Nat.find hHit + 1 + m := ⟨k - (Nat.find hHit + 1), by omega⟩
  clear hk
  induction m with
  | zero => exact hat
  | succ m ih =>
    obtain ⟨p1, p2, p3⟩ := ih
    rw [← Nat.add_assoc, animateN_succ_no_respawn H inp rolls hrolls rs g0 _,
      checkCollision_nil (updateCarMovement H (inp (Nat.find hHit + 1 + m))
        (animateN H inp rolls rs g0 (Nat.find hHit + 1 + m))) p1]
    exact ⟨p1, p2, p3⟩

theorem no_tunnelling_straight_ahead_witness :
    ∃ n : ℕ,
      (∀ k, k ≤ n →
        (animateN ratHost (fun _ => ⟨true, false, false, false⟩) (fun _ => 0.5)
            (fun _ => ⟨0, 0, 0, 0, 0, 0, 0⟩)
            { (initial : Game ℚ) with pedestrians := [⟨0, 0.85, -25⟩] } k).pedestrians
          = [⟨0, 0.85, -25⟩] ∧
        (animateN ratHost (fun _ => ⟨true, false, false, false⟩) (fun _ => 0.5)
            (fun _ => ⟨0, 0, 0, 0, 0, 0, 0⟩)
            { (initial : Game ℚ) with pedestrians := [⟨0, 0.85, -25⟩] } k).hitCount = 0 ∧
        (animateN ratHost (fun _ => ⟨true, false, false, false⟩) (fun _ => 0.5)
            (fun _ => ⟨0, 0, 0, 0, 0, 0, 0⟩)
            { (initial : Game ℚ) with pedestrians := [⟨0, 0.85, -25⟩] } k).pendingRespawns = 0) ∧
      (updateCarMovement ratHost ⟨true, false, false, false⟩
          (animateN ratHost (fun _ => ⟨true, false, false, false⟩) (fun _ => 0.5)
            (fun _ => ⟨0, 0, 0, 0, 0, 0, 0⟩)
            { (initial : Game ℚ) with pedestrians := [⟨0, 0.85, -25⟩] } n)).car.position.distanceToSquared
        ⟨0, 0.85, -25⟩ < 1.8 * 1.8 ∧
      (∀ k, n < k →
        (animateN ratHost (fun _ => ⟨true, false, false, false⟩) (fun _ => 0.5)
            (fun _ => ⟨0, 0, 0, 0, 0, 0, 0⟩)
            { (initial : Game ℚ) with pedestrians := [⟨0, 0.85, -25⟩] } k).pedestrians = [] ∧
        (animateN ratHost (fun _ => ⟨true, false, false, false⟩) (fun _ => 0.5)
            (fun _ => ⟨0, 0, 0, 0, 0, 0, 0⟩)
            { (initial : Game ℚ) with pedestrians := [⟨0, 0.85, -25⟩] } k).hitCount = 0 + 1 ∧
        (animateN ratHost (fun _ => ⟨true, false, false, false⟩) (fun _ => 0.5)
            (fun _ => ⟨0, 0, 0, 0, 0, 0, 0⟩)
            { (initial : Game ℚ) with pedestrians := [⟨0, 0.85, -25⟩] } k).pendingRespawns
          = 0 + 1) :=
  no_tunnelling_straight_ahead ratHost (by norm_num [ratHost]) (by norm_num [ratHost]) 25
    ⟨by norm_num, by norm_num⟩ (fun _ => ⟨true, false, false, false⟩)
    (fun _ => ⟨rfl, rfl, rfl⟩) (fun _ => 0.5) (fun _ => by norm_num)
    (fun _ => ⟨0, 0, 0, 0, 0, 0, 0⟩)
    { (initial : Game ℚ) with pedestrians := [⟨0, 0.85, -25⟩] } rfl rfl rfl

/-! ## Camera follow -/

/-- The desired camera position of `updateCamera`: the car position plus the
offset `(0, 4, 8)` turned about the vertical axis by the heading `h`, which is
`(8 * sin h, 4, 8 * cos h)`. -/
theorem updateCamera_target (H : Host α) (p : Vector3 α) (h : α) :
    p.add (Vector3.applyYaw H h ⟨0, 4, 8⟩)
      = ⟨p.x + 8 * H.sin h, p.y + 4, p.z + 8 * H.cos h⟩ := by
  simp [Vector3.add, Vector3.applyYaw]

/-- C12. Camera follow: for every camera position `c`, car position `p` and car
heading `h`, after one `updateCamera` call the camera position is exactly
`c + 0.05 * (t - c)`, where the desired position is `t = p +` (the offset
`(0, 4, 8)` rotated about the vertical axis by `h`) `= p + (8 * sin h, 4,
8 * cos h)`. Hence the remaining offset to `t` is scaled by exactly `0.95`
(`t - c' = 0.95 * (t - c)`), a camera already at `t` stays at `t`, and nothing
but the camera position changes. -/
theorem camera_follow (H : Host α) (g : Game α) :
    g.car.position.add (Vector3.applyYaw H g.car.rotationY ⟨0, 4, 8⟩)
      = ⟨g.car.position.x + 8 * H.sin g.car.rotationY, g.car.position.y + 4,
          g.car.position.z + 8 * H.cos g.car.rotationY⟩ ∧
    (updateCamera H g).camera =
      ⟨g.camera.x + 0.05 * (g.car.position.x + 8 * H.sin g.car.rotationY - g.camera.x),
        g.camera.y + 0.05 * (g.car.position.y + 4 - g.camera.y),
        g.camera.z + 0.05 * (g.car.position.z + 8 * H.cos g.car.rotationY - g.camera.z)⟩ ∧
    (g.car.position.x + 8 * H.sin g.car.rotationY - (updateCamera H g).camera.x
        = 0.95 * (g.car.position.x + 8 * H.sin g.car.rotationY - g.camera.x) ∧
      g.car.position.y + 4 - (updateCamera H g).camera.y
        = 0.95 * (g.car.position.y + 4 - g.camera.y) ∧
      g.car.position.z + 8 * H.cos g.car.rotationY - (updateCamera H g).camera.z
        = 0.95 * (g.car.position.z + 8 * H.cos g.car.rotationY - g.camera.z)) ∧
    (updateCamera H
        { g with camera := ⟨g.car.position.x + 8 * H.sin g.car.rotationY, g.car.position.y + 4,
                            g.car.position.z + 8 * H.cos g.car.rotationY⟩ }).camera
      = ⟨g.car.position.x + 8 * H.sin g.car.rotationY, g.car.position.y + 4,
          g.car.position.z + 8 * H.cos g.car.rotationY⟩ ∧
    updateCamera H g = { g with camera := (updateCamera H g).camera } := by
  have hc : (updateCamera H g).camera =
      ⟨g.camera.x + 0.05 * (g.car.position.x + 8 * H.sin g.car.rotationY - g.camera.x),
        g.camera.y + 0.05 * (g.car.position.y + 4 - g.camera.y),
        g.camera.z + 0.05 * (g.car.position.z + 8 * H.cos g.car.rotationY - g.camera.z)⟩ := by
    simp only [updateCamera, updateCamera_target, Vector3.lerp, Vector3.mk.injEq]
    refine ⟨?_, ?_, ?_⟩ <;> ring
  refine ⟨updateCamera_target H _ _, hc, ⟨?_, ?_, ?_⟩, ?_, rfl⟩
  · rw [hc]; ring
  · rw [hc]; ring
  · rw [hc]; ring
  · simp only [updateCamera, updateCamera_target, Vector3.lerp, Vector3.mk.injEq]
    refine ⟨?_, ?_, ?_⟩ <;> ring

/-! ## Per-axis clamping -/

theorem applyYaw_forward (H : Host α) (h : α) :
    Vector3.applyYaw H h ⟨0, 0, -1⟩ = ⟨-H.sin h, 0, -H.cos h⟩ := by
  simp [Vector3.applyYaw]

/-- The position after a tick, coordinate by coordinate: each of `x` and `z` is
its own old value displaced along the forward vector of the updated heading and
clamped to its own interval; `y` is unchanged. -/
theorem updateCarMovement_position (H : Host α) (inp : Input) (g : Game α) :
    (updateCarMovement H inp g).car.position =
      ⟨clamp (g.car.position.x + (updateCarMovement H inp g).carSpeed *
            -H.sin (updateCarMovement H inp g).car.rotationY) (-8) 8,
        g.car.position.y,
        clamp (g.car.position.z + (updateCarMovement H inp g).carSpeed *
            -H.cos (updateCarMovement H inp g).car.rotationY) (-190) 190⟩ := by
  simp only [updateCarMovement, nextPosition, applyYaw_forward, Vector3.addScaledVector,
    roadBoundaryX, roadBoundaryZ, Vector3.mk.injEq]
  refine ⟨?_, ?_, ?_⟩
  · rw [mul_comm]
  · simp
  · rw [mul_comm]

/-- The heading after a tick that starts with heading `0` and a speed in
`[0, 0.4]` lies in `[-0.0325, 0.0325]`. -/
theorem nextRotation_small (inp : Input) (s s2 : α) (hs : 0 ≤ s ∧ s ≤ 0.4) :
    -0.0325 ≤ nextRotation inp (effectiveRotationSpeed s) s2 0 ∧
    nextRotation inp (effectiveRotationSpeed s) s2 0 ≤ 0.0325 := by
  have he : 0 ≤ effectiveRotationSpeed s ∧ effectiveRotationSpeed s ≤ 0.0325 := by
    unfold effectiveRotationSpeed
    rw [abs_of_nonneg hs.1]
    norm_num [rotationSpeed, maxSpeed]
    constructor <;> linarith [hs.1, hs.2]
  obtain ⟨h1, h2⟩ := he
  unfold nextRotation
  split_ifs <;> (try simp only [zero_add, zero_sub, sub_self]) <;> constructor <;> linarith

/-- C11. Per-axis clamping, with the sine and cosine of the host the real ones.
A car pinned at the right edge (`x = 8`) with heading `0`, speed in `[0, 0.4]`
and `z` in `(-190, 190]`: one `updateCarMovement` tick with `moveForward` and
`turnLeft` held yields `x' ≤ 8` and `z' < z` (and `x' < 8` when `turnRight`
is not held as well: the car leaves the edge). In general the new `x` is
`clamp (x + speed' * dir_x) (-8) 8` and the new `z` is
`clamp (z + speed' * dir_z) (-190) 190`, where `speed'` is the updated speed
and `(dir_x, 0, dir_z) = (-sin h', 0, -cos h')` is the forward unit vector of
the updated heading `h'`; the new `x` does not depend on the old `z`, nor the
new `z` on the old `x`. -/
theorem per_axis_clamping (H : Host ℝ) (hsin : H.sin = Real.sin) (hcos : H.cos = Real.cos)
    (g : Game ℝ) (inp : Input)
    (hx : g.car.position.x = 8) (hrot : g.car.rotationY = 0)
    (hs : 0 ≤ g.carSpeed ∧ g.carSpeed ≤ 0.4)
    (hz : -190 < g.car.position.z ∧ g.car.position.z ≤ 190)
    (hf : inp.moveForward = true) (hl : inp.turnLeft = true)
    (g2 : Game ℝ) (inp2 : Input) (x2 z2 : ℝ) :
    ((updateCarMovement H inp g).car.position.x ≤ 8 ∧
      (updateCarMovement H inp g).car.position.z < g.car.position.z ∧
      (inp.turnRight = false → (updateCarMovement H inp g).car.position.x < 8)) ∧
    ((updateCarMovement H inp2 g2).car.position.x =
        clamp (g2.car.position.x + (updateCarMovement H inp2 g2).carSpeed *
          (Vector3.applyYaw H (updateCarMovement H inp2 g2).car.rotationY ⟨0, 0, -1⟩).x) (-8) 8 ∧
      (updateCarMovement H inp2 g2).car.position.z =
        clamp (g2.car.position.z + (updateCarMovement H inp2 g2).carSpeed *
          (Vector3.applyYaw H (updateCarMovement H inp2 g2).car.rotationY ⟨0, 0, -1⟩).z)
          (-190) 190) ∧
    (Vector3.applyYaw H (updateCarMovement H inp2 g2).car.rotationY ⟨0, 0, -1⟩
        = ⟨-Real.sin (updateCarMovement H inp2 g2).car.rotationY, 0,
            -Real.cos (updateCarMovement H inp2 g2).car.rotationY⟩ ∧
      (Vector3.applyYaw H (updateCarMovement H inp2 g2).car.rotationY ⟨0, 0, -1⟩).distanceToSquared
        ⟨0, 0, 0⟩ = 1) ∧
    ((updateCarMovement H inp2
          { g2 with car := ⟨⟨g2.car.position.x, g2.car.position.y, z2⟩, g2.car.rotationY⟩ }).car.position.x
        = (updateCarMovement H inp2 g2).car.position.x ∧
      (updateCarMovement H inp2
          { g2 with car := ⟨⟨x2, g2.car.position.y, g2.car.position.z⟩, g2.car.rotationY⟩ }).car.position.z
        = (updateCarMovement H inp2 g2).car.position.z) := by
  have hs1 : (0.015 : ℝ) ≤ min (g.carSpeed + acceleration) maxSpeed :=
    le_min (by norm_num [acceleration]; linarith [hs.1]) (by norm_num [maxSpeed])
  refine ⟨⟨?_, ?_, ?_⟩, ⟨?_, ?_⟩, ⟨?_, ?_⟩, ?_, ?_⟩
  · exact (nextPosition_bounds H _ _ _).1.2
  · rw [updateCarMovement_position, updateCarMovement_carSpeed, updateCarMovement_rotationY,
      nextSpeed_forward inp hf, hrot, hcos]
    obtain ⟨r1, r2⟩ := nextRotation_small inp g.carSpeed
      (min (g.carSpeed + acceleration) maxSpeed) hs
    have hpi := Real.pi_gt_three
    have hc : 0 < Real.cos (nextRotation inp (effectiveRotationSpeed g.carSpeed)
        (min (g.carSpeed + acceleration) maxSpeed) 0) :=
      Real.cos_pos_of_mem_Ioo ⟨by linarith, by linarith⟩
    show clamp _ _ _ < _
    unfold clamp
    refine max_lt hz.1 ((min_le_right _ _).trans_lt ?_)
    have := mul_pos (lt_of_lt_of_le (by norm_num) hs1) hc
    linarith
  · intro hr
    rw [updateCarMovement_position, updateCarMovement_carSpeed, updateCarMovement_rotationY,
      nextSpeed_forward inp hf, hrot, hsin, hx]
    have hgate : |min (g.carSpeed + acceleration) maxSpeed| > 0.01 := by
      rw [abs_of_pos (lt_of_lt_of_le (by norm_num) hs1)]
      exact lt_of_lt_of_le (by norm_num) hs1
    have hrot2 : nextRotation inp (effectiveRotationSpeed g.carSpeed)
        (min (g.carSpeed + acceleration) maxSpeed) 0 = effectiveRotationSpeed g.carSpeed := by
      simp [nextRotation, hgate, hl, hr]
    obtain ⟨_, r2⟩ := nextRotation_small inp g.carSpeed
      (min (g.carSpeed + acceleration) maxSpeed) hs
    rw [hrot2] at r2 ⊢
    have he : 0 < effectiveRotationSpeed g.carSpeed := by
      unfold effectiveRotationSpeed
      rw [abs_of_nonneg hs.1]
      norm_num [rotationSpeed, maxSpeed]
      linarith [hs.1]
    have hpi := Real.pi_gt_three
    have hsn : 0 < Real.sin (effectiveRotationSpeed g.carSpeed) :=
      Real.sin_pos_of_pos_of_lt_pi he (by linarith)
    show clamp _ _ _ < _
    unfold clamp
    refine max_lt (by norm_num) ((min_le_right _ _).trans_lt ?_)
    have := mul_pos (lt_of_lt_of_le (by norm_num) hs1) hsn
    linarith
  · rw [updateCarMovement_position, applyYaw_forward]
  · rw [updateCarMovement_position, applyYaw_forward]
  · rw [applyYaw_forward, hsin, hcos]
  · rw [applyYaw_forward, hsin, hcos]
    simp only [Vector3.distanceToSquared]
    have := Real.sin_sq_add_cos_sq (updateCarMovement H inp2 g2).car.rotationY
    nlinarith
  · rw [updateCarMovement_position, updateCarMovement_position]
    rfl
  · rw [updateCarMovement_position, updateCarMovement_position]
    rfl

theorem per_axis_clamping_witness :
    (updateCarMovement ⟨Real.sin, Real.cos, Real.sqrt⟩ ⟨true, false, true, false⟩
        { (initial : Game ℝ) with car := ⟨⟨8, 0.3, 0⟩, 0⟩ }).car.position.x < 8 ∧
    (updateCarMovement ⟨Real.sin, Real.cos, Real.sqrt⟩ ⟨true, false, true, false⟩
        { (initial : Game ℝ) with car := ⟨⟨8, 0.3, 0⟩, 0⟩ }).car.position.z < 0 :=
  (fun h => ⟨h.2.2 rfl, h.2.1⟩)
    (per_axis_clamping ⟨Real.sin, Real.cos, Real.sqrt⟩ rfl rfl
      { (initial : Game ℝ) with car := ⟨⟨8, 0.3, 0⟩, 0⟩ } ⟨true, false, true, false⟩
      rfl rfl ⟨by norm_num [initial], by norm_num [initial]⟩ ⟨by norm_num, by norm_num⟩ rfl rfl
      initial ⟨false, false, false, false⟩ 0 0).1

/-! ## A spawn on top of the car -/

/-- C13. A spawn can land on the car, with the sine and cosine of the host the
real ones: car at `(0, 0.3, z)` (any `z`, in particular any in-bounds one) with
heading `π / 2`, so that its forward vector is `(-1, 0, 0)`; empty pool;
lateral draw `0.5`. The forward displacement of `20 + 30 * r ≥ 20` units moves
the candidate along `x` only, and `x` is then overwritten by the lateral offset
`0`: a non-initial `spawnPedestrian` succeeds and places the pedestrian at
`(0, 0.85, z)`, at distance `0.55 < 1.8` from the car, which has not moved, and
the next `checkCollision` registers a hit: `hitCount` grows by `1` and the
pedestrian is removed again. -/
theorem spawn_can_land_on_car (H : Host ℝ) (hsin : H.sin = Real.sin) (hcos : H.cos = Real.cos)
    (g : Game ℝ) (r : Draws ℝ) (z : ℝ)
    (hcar : g.car = ⟨⟨0, 0.3, z⟩, Real.pi / 2⟩) (hpool : g.pedestrians = [])
    (hside : r.side = 0.5) (hdist : 0 ≤ r.distance ∧ r.distance < 1) :
    Vector3.applyYaw H g.car.rotationY ⟨0, 0, -1⟩ = ⟨-1, 0, 0⟩ ∧
    (g.car.position.add
        ((Vector3.applyYaw H g.car.rotationY ⟨0, 0, -1⟩).multiplyScalar (20 + r.distance * 30))
        = ⟨-(20 + r.distance * 30), 0.3, z⟩ ∧
      20 ≤ 20 + r.distance * 30) ∧
    (spawnPedestrian H false r g).pedestrians = [⟨0, 0.85, z⟩] ∧
    (spawnPedestrian H false r g).car = g.car ∧
    (g.car.position.distanceToSquared ⟨0, 0.85, z⟩ = 0.55 * 0.55 ∧
      Real.sqrt (g.car.position.distanceToSquared ⟨0, 0.85, z⟩) = 0.55 ∧
      g.car.position.distanceToSquared ⟨0, 0.85, z⟩ < 1.8 * 1.8) ∧
    (checkCollision (spawnPedestrian H false r g)).hitCount = g.hitCount + 1 ∧
    (checkCollision (spawnPedestrian H false r g)).pedestrians = [] := by
  have hfwd : Vector3.applyYaw H g.car.rotationY ⟨0, 0, -1⟩ = ⟨-1, 0, 0⟩ := by
    rw [applyYaw_forward, hsin, hcos, hcar]
    simp [Real.sin_pi_div_two, Real.cos_pi_div_two]
  have hpos : spawnPos H false r g.car = ⟨0, 0.85, z⟩ := by
    have h1 : spawnPos H false r g.car =
        ⟨(r.side - 0.5) * (roadBoundaryX * 2 * 0.9), 0.85,
          (g.car.position.add ((Vector3.applyYaw H g.car.rotationY ⟨0, 0, -1⟩).multiplyScalar
            (20 + r.distance * 30))).z⟩ := by
      simp [spawnPos]
    rw [h1, hfwd, hside, hcar]
    simp [Vector3.add, Vector3.multiplyScalar]
  have hsp : spawnPedestrian H false r g = { g with pedestrians := [⟨0, 0.85, z⟩] } := by
    simp [spawnPedestrian, hpool, tooClose, maxPedestrians, hpos]
  have hd : g.car.position.distanceToSquared ⟨0, 0.85, z⟩ = 0.55 * 0.55 := by
    rw [hcar]
    simp only [Vector3.distanceToSquared]
    norm_num
  have hcc : checkCollision (spawnPedestrian H false r g) =
      { g with hitCount := g.hitCount + 1, pedestrians := [],
               pendingRespawns := g.pendingRespawns + 1 } := by
    rw [hsp, checkCollision_singleton _ ⟨0, 0.85, z⟩ rfl, if_pos]
    show g.car.position.distanceToSquared ⟨0, 0.85, z⟩ < 1.8 * 1.8
    rw [hd]; norm_num
  refine ⟨hfwd, ⟨?_, by linarith [hdist.1]⟩, ?_, ?_, ⟨hd, ?_, ?_⟩, ?_, ?_⟩
  · rw [hfwd, hcar]
    simp [Vector3.add, Vector3.multiplyScalar]
  · rw [hsp]
  · rw [hsp]
  · rw [hd]; exact Real.sqrt_mul_self (by norm_num)
  · rw [hd]; norm_num
  · rw [hcc]
  · rw [hcc]

theorem spawn_can_land_on_car_witness :
    (checkCollision (spawnPedestrian ⟨Real.sin, Real.cos, Real.sqrt⟩ false
        ⟨0, 0, 0, 0.5, 0, 0, 0⟩
        { (initial : Game ℝ) with car := ⟨⟨0, 0.3, 0⟩, Real.pi / 2⟩ })).hitCount = 1 :=
  (spawn_can_land_on_car ⟨Real.sin, Real.cos, Real.sqrt⟩ rfl rfl
    { (initial : Game ℝ) with car := ⟨⟨0, 0.3, 0⟩, Real.pi / 2⟩ } ⟨0, 0, 0, 0.5, 0, 0, 0⟩ 0
    rfl rfl rfl ⟨le_rfl, by norm_num⟩).2.2.2.2.2.1

end Theorems

end Games
